import Mathlib

/-!
Verification of the workspace-reconciliation workflow of the Unified GitHub
Manager (`menu-designe.py`) against its specification.

The program is an interactive tool whose core logic is a handful of short
functions driving an external `git` executable.  We embed those functions
shallowly: each external command's exit status is an input (an environment
record), URLs are lists of characters, and each embedded function returns the
observable data of the original — the resulting origin URL, the sequence of
external commands it issued, and the per-repository outcome it reported.
-/

namespace UnifiedManager

/-! ## URL rewriting (`fix_remote_with_token` and the inline copies)

Python's `str.replace(pat, rep)` replaces every non-overlapping occurrence of
`pat`, scanning left to right.  `replaceAllAux` mirrors that scan; the fuel
argument only bounds the recursion and is always at least the length of the
remaining string, so the `0` case is never reached on the calls we make.  The
program only ever calls replace with the fixed non-empty pattern `https://`,
so `replaceAll` keeps the string unchanged on an empty pattern. -/

def replaceAllAux (pat rep : List Char) : Nat → List Char → List Char
  | _, [] => []
  | 0, s => s
  | Nat.succ fuel, c :: rest =>
    if pat.isPrefixOf (c :: rest) then
      rep ++ replaceAllAux pat rep fuel ((c :: rest).drop pat.length)
    else
      c :: replaceAllAux pat rep fuel rest

def replaceAll (pat rep s : List Char) : List Char :=
  if pat.isEmpty then s else replaceAllAux pat rep s.length s

/-- The literal `https://` prefix tested by the program. -/
def HTTPS : List Char := "https://".toList

/-- Test `origin.startswith("https://") and "@" not in origin`: the plain
unauthenticated HTTPS form. -/
def isPlainHttps (url : List Char) : Bool :=
  HTTPS.isPrefixOf url && !(url.contains '@')

/-- The URL rewrite performed (identically) at four places in the source:
`if url.startswith("https://") and "@" not in url:
   url = url.replace("https://", f"https://TOKEN@")`. -/
def withToken (token url : List Char) : List Char :=
  if isPlainHttps url then
    replaceAll HTTPS (HTTPS ++ token ++ ['@']) url
  else url

/-! ## `fix_remote_with_token`

The original reads the origin URL with `git remote get-url origin`
(`check_output`, whose failure is caught by the surrounding bare `except`),
rewrites a plain-HTTPS URL via `safe_run(["git",...,"set-url",...])` whose
Boolean result is discarded, logs "Updated remote" unconditionally on that
path, and returns `None` in every case.  The environment says which of the
two external commands would succeed; the function's value is the new origin
URL together with the list of observable events. -/

structure FixEnv where
  getUrlOk : Bool
  setUrlOk : Bool
deriving DecidableEq, Repr

inductive FixEvent
  | getUrlCmd
  | setUrlCmd (url : List Char)
  | loggedUpdated
deriving DecidableEq, Repr

def fix_remote_with_token (token : List Char) (fenv : FixEnv)
    (origin : Option (List Char)) : Option (List Char) × List FixEvent :=
  match origin with
  | none => (none, [FixEvent.getUrlCmd])
  | some url =>
    if fenv.getUrlOk then
      if isPlainHttps url then
        let newUrl := replaceAll HTTPS (HTTPS ++ token ++ ['@']) url
        ((if fenv.setUrlOk then some newUrl else some url),
         [FixEvent.getUrlCmd, FixEvent.setUrlCmd newUrl, FixEvent.loggedUpdated])
      else (some url, [FixEvent.getUrlCmd])
    else (some url, [FixEvent.getUrlCmd])

/-! ## Batch workspace manager (`batch_workspace_manager`, menu choices 1–3)

For each repository directory the loop runs `fix_remote_with_token`, then a
`try` block: choice 1 pulls, choice 2 stages/commits/pushes, choice 3 does
both.  `run` raises `CalledProcessError` on a non-zero exit (`check=True`),
whereas the `git commit` step uses bare `subprocess.run` and only inspects
`returncode`.  The per-repository `except` turns any escaped exception into a
"Failed for ..." report and continues with the next repository. -/

structure RepoEnv where
  pullOk : Bool
  addOk : Bool
  commitCode : Nat
  pushOk : Bool
deriving DecidableEq, Repr

inductive GitCmd
  | pull
  | addAll
  | commit
  | push
deriving DecidableEq, Repr

inductive BatchChoice
  | pullAll
  | pushAll
  | syncAll
deriving DecidableEq, Repr

inductive Outcome
  | ok
  | nothingToCommit
  | failed
deriving DecidableEq, Repr

/-- The `add`/`commit`/`push` part of the try block (choices 2 and 3).
`Except.error cmds` is an exception escaping after attempting `cmds`. -/
def pushPhase (env : RepoEnv) (acc : List GitCmd) :
    Except (List GitCmd) (List GitCmd × Outcome) :=
  if env.addOk then
    let acc2 := acc ++ [GitCmd.addAll, GitCmd.commit]
    if env.commitCode = 0 then
      if env.pushOk then Except.ok (acc2 ++ [GitCmd.push], Outcome.ok)
      else Except.error (acc2 ++ [GitCmd.push])
    else Except.ok (acc2, Outcome.nothingToCommit)
  else Except.error (acc ++ [GitCmd.addAll])

/-- The whole try block of one loop iteration. -/
def tryBlock (choice : BatchChoice) (env : RepoEnv) :
    Except (List GitCmd) (List GitCmd × Outcome) :=
  match choice with
  | BatchChoice.pullAll =>
      if env.pullOk then Except.ok ([GitCmd.pull], Outcome.ok)
      else Except.error [GitCmd.pull]
  | BatchChoice.pushAll => pushPhase env []
  | BatchChoice.syncAll =>
      if env.pullOk then pushPhase env [GitCmd.pull]
      else Except.error [GitCmd.pull]

/-- One loop iteration with its `except Exception` handler: a failure is
reported for this repository and the loop moves on. -/
def repoStep (choice : BatchChoice) (env : RepoEnv) : List GitCmd × Outcome :=
  match tryBlock choice env with
  | Except.ok r => r
  | Except.error cmds => (cmds, Outcome.failed)

/-- The whole batch loop: every directory is visited; each iteration's result
depends only on that repository's environment. -/
def batch_workspace_manager_run (choice : BatchChoice) (envs : List RepoEnv) :
    List (List GitCmd × Outcome) :=
  envs.map (repoStep choice)

/-- One batch iteration including the credential fix-up that precedes the try
block (`fix_remote_with_token(path)` is called before any git operation). -/
def batch_workspace_manager_step (token : List Char) (fenv : FixEnv)
    (origin : Option (List Char)) (choice : BatchChoice) (env : RepoEnv) :
    (Option (List Char) × List FixEvent) × (List GitCmd × Outcome) :=
  (fix_remote_with_token token fenv origin, repoStep choice env)

/-! ## Clone to workspace (`clone_to_workspace`)

For each selected remote repository: if the destination directory exists the
loop reports "Already exists, skipping" and runs `fix_remote_with_token`;
otherwise it embeds the token into the clone URL, runs `git clone` inside a
`try` (a failure is reported and the loop continues), and on success runs
`fix_remote_with_token`.  Nothing in the function ever removes the
destination directory (`removeDst` exists in the event alphabet only so that
its absence is expressible). -/

structure CloneEnv where
  dstExists : Bool
  cloneUrl : List Char
  cloneOk : Bool
deriving DecidableEq, Repr

inductive CloneEvent
  | cloneCmd (url : List Char)
  | fixRemote
  | removeDst
deriving DecidableEq, Repr

inductive CloneOutcome
  | alreadyPresent
  | cloned
  | cloneFailed
deriving DecidableEq, Repr

def clone_to_workspace_step (token : List Char) (env : CloneEnv) :
    List CloneEvent × CloneOutcome :=
  if env.dstExists then
    ([CloneEvent.fixRemote], CloneOutcome.alreadyPresent)
  else
    let url := withToken token env.cloneUrl
    if env.cloneOk then
      ([CloneEvent.cloneCmd url, CloneEvent.fixRemote], CloneOutcome.cloned)
    else
      ([CloneEvent.cloneCmd url], CloneOutcome.cloneFailed)

/-- The whole clone loop over the selected repositories. -/
def clone_to_workspace_run (token : List Char) (envs : List CloneEnv) :
    List (List CloneEvent × CloneOutcome) :=
  envs.map (clone_to_workspace_step token)

/-! ## `list_repos` -/

/-- Model of `list_repos`: `list(user.get_repos())[:limit]` with `limit = 1000` at
every call site; any exception from the API yields `[]`.  `apiResult = none`
models the API call raising. -/
def list_repos {α : Type} (apiResult : Option (List α)) (limit : Nat := 1000) :
    List α :=
  match apiResult with
  | some repos => repos.take limit
  | none => []

/-! ## Helper lemmas -/

theorem isPrefixOf_iff_exists (pat s : List Char) :
    pat.isPrefixOf s = true ↔ ∃ t, s = pat ++ t := by
  rw [List.isPrefixOf_iff_prefix]
  constructor
  · rintro ⟨t, ht⟩; exact ⟨t, ht.symm⟩
  · rintro ⟨t, ht⟩; exact ⟨t, ht.symm⟩

theorem contains_iff_mem (s : List Char) (c : Char) :
    s.contains c = true ↔ c ∈ s := by
  simp [List.contains]

/-- One unfolding step of `replaceAll` when the pattern is a non-empty prefix
of the string and the fuel covers the string. -/
theorem replaceAll_starts_with_rep (pat rep s : List Char)
    (hne : pat ≠ []) (hpre : pat.isPrefixOf s = true) :
    ∃ t, replaceAll pat rep s = rep ++ t := by
  obtain ⟨u, hu⟩ := (isPrefixOf_iff_exists pat s).1 hpre
  have hslen : s ≠ [] := by
    cases pat with
    | nil => exact absurd rfl hne
    | cons p ps => subst hu; simp
  cases s with
  | nil => exact absurd rfl hslen
  | cons c rest =>
    refine ⟨replaceAllAux pat rep rest.length ((c :: rest).drop pat.length), ?_⟩
    have hempty : pat.isEmpty = false := by
      cases pat with
      | nil => exact absurd rfl hne
      | cons p ps => rfl
    simp only [replaceAll, hempty, Bool.false_eq_true, if_false,
      List.length_cons, replaceAllAux, hpre, if_true]

/-- After the rewrite of a plain-HTTPS URL the result contains `@`. -/
theorem withToken_contains_at (token url : List Char)
    (h : isPlainHttps url = true) : '@' ∈ withToken token url := by
  have hpre : HTTPS.isPrefixOf url = true := by
    have h2 := h; unfold isPlainHttps at h2
    rw [Bool.and_eq_true] at h2
    exact h2.1
  obtain ⟨t, ht⟩ := replaceAll_starts_with_rep HTTPS (HTTPS ++ token ++ ['@']) url
    (by decide) hpre
  unfold withToken
  rw [h, if_pos rfl, ht]
  simp

/-- An unchanged URL when the form is not plain HTTPS. -/
theorem withToken_of_not_plain (token url : List Char)
    (h : isPlainHttps url = false) : withToken token url = url := by
  unfold withToken; rw [h]; simp

theorem isPlainHttps_withToken (token url : List Char)
    (h : isPlainHttps url = true) : isPlainHttps (withToken token url) = false := by
  have hat : '@' ∈ withToken token url := withToken_contains_at token url h
  have hc : (withToken token url).contains '@' = true :=
    (contains_iff_mem _ _).2 hat
  unfold isPlainHttps
  rw [hc]
  simp

theorem withToken_idem (token url : List Char) :
    withToken token (withToken token url) = withToken token url := by
  cases h : isPlainHttps url with
  | false => rw [withToken_of_not_plain token url h, withToken_of_not_plain token url h]
  | true => exact withToken_of_not_plain token _ (isPlainHttps_withToken token url h)

theorem isPlainHttps_starts_https (url : List Char) (h : isPlainHttps url = true) :
    HTTPS.isPrefixOf url = true := by
  unfold isPlainHttps at h
  rw [Bool.and_eq_true] at h
  exact h.1

/-- On a plain-HTTPS URL the rewrite produces `https://` ++ token ++ `@` ++
the rest: the credential is literally embedded after the scheme. -/
theorem withToken_of_plain (token url : List Char) (h : isPlainHttps url = true) :
    ∃ t, withToken token url = HTTPS ++ token ++ ['@'] ++ t := by
  obtain ⟨t, ht⟩ := replaceAll_starts_with_rep HTTPS (HTTPS ++ token ++ ['@']) url
    (by decide) (isPlainHttps_starts_https url h)
  refine ⟨t, ?_⟩
  unfold withToken
  rw [h, if_pos rfl, ht]

end UnifiedManager

namespace UnifiedManager

/-! ## The claims -/

/-- C4: `embedCredential` (the URL rewrite of `fix_remote_with_token`) is
idempotent and selective: a plain unauthenticated HTTPS URL is rewritten to
embed the credential right after the scheme, every other URL is left
unchanged, and applying the rewrite twice yields the same URL as applying it
once. -/
theorem embedCredential_idempotent_selective (token url : List Char) :
    withToken token (withToken token url) = withToken token url ∧
    (isPlainHttps url = true →
      ∃ t, withToken token url = HTTPS ++ token ++ ['@'] ++ t) ∧
    (isPlainHttps url = false → withToken token url = url) :=
  ⟨withToken_idem token url, withToken_of_plain token url,
    withToken_of_not_plain token url⟩

theorem embedCredential_idempotent_selective_witness :
    (withToken "tok".toList (withToken "tok".toList "https://h/r.git".toList) =
      withToken "tok".toList "https://h/r.git".toList) ∧
    (∃ t, withToken "tok".toList "https://h/r.git".toList =
      HTTPS ++ "tok".toList ++ ['@'] ++ t) ∧
    (withToken "tok".toList "git@h:r.git".toList = "git@h:r.git".toList) :=
  ⟨(embedCredential_idempotent_selective "tok".toList "https://h/r.git".toList).1,
   (embedCredential_idempotent_selective "tok".toList "https://h/r.git".toList).2.1
     (by decide),
   (embedCredential_idempotent_selective "tok".toList "git@h:r.git".toList).2.2
     (by decide)⟩

/-- C10: `list_repos` returns at most 1000 repositories (its `limit`
defaults to 1000 and every call site uses the default), and a failing
listing API call yields the empty list instead of an error. -/
theorem list_repos_limit_and_failure {α : Type} (apiResult : Option (List α)) :
    (list_repos apiResult).length ≤ 1000 ∧
    list_repos (none : Option (List α)) = [] := by
  constructor
  · cases apiResult with
    | none => simp [list_repos]
    | some l =>
        show (l.take 1000).length ≤ 1000
        rw [List.length_take]
        exact min_le_left _ _
  · rfl

/-- C2: the Clone policy never invokes `clone` on an existing destination
directory: it only repairs the credential and reports "already present";
when the directory is absent it clones first (with the token-embedded URL)
and then repairs the credential. -/
theorem clone_policy_skips_existing (token : List Char) (env : CloneEnv) :
    (env.dstExists = true →
      (clone_to_workspace_step token env).1 = [CloneEvent.fixRemote] ∧
      (∀ u, CloneEvent.cloneCmd u ∉ (clone_to_workspace_step token env).1) ∧
      (clone_to_workspace_step token env).2 = CloneOutcome.alreadyPresent) ∧
    (env.dstExists = false →
      (clone_to_workspace_step token env).1.head? =
        some (CloneEvent.cloneCmd (withToken token env.cloneUrl)) ∧
      (env.cloneOk = true →
        (clone_to_workspace_step token env).1 =
          [CloneEvent.cloneCmd (withToken token env.cloneUrl),
           CloneEvent.fixRemote])) := by
  constructor
  · intro h
    simp [clone_to_workspace_step, h]
  · intro h
    cases hc : env.cloneOk <;> simp [clone_to_workspace_step, h, hc]

theorem clone_policy_skips_existing_witness :
    ((clone_to_workspace_step "tok".toList ⟨true, "https://h/r".toList, true⟩).1 =
      [CloneEvent.fixRemote]) ∧
    ((clone_to_workspace_step "tok".toList ⟨false, "https://h/r".toList, true⟩).1 =
      [CloneEvent.cloneCmd (withToken "tok".toList "https://h/r".toList),
       CloneEvent.fixRemote]) :=
  ⟨((clone_policy_skips_existing "tok".toList
      ⟨true, "https://h/r".toList, true⟩).1 rfl).1,
   ((clone_policy_skips_existing "tok".toList
      ⟨false, "https://h/r".toList, true⟩).2 rfl).2 rfl⟩

/-- C6: every batch loop (pull/push/sync over the workspace, and the clone
loop) visits all N repositories and produces one outcome per repository;
each entry depends only on that repository's own environment, so one
repository's failure cannot change or suppress another's record. -/
theorem batch_visits_every_repository (choice : BatchChoice)
    (envs : List RepoEnv) (token : List Char) (cenvs : List CloneEnv) :
    ((batch_workspace_manager_run choice envs).length = envs.length ∧
      ∀ i : Nat, (batch_workspace_manager_run choice envs)[i]? =
        Option.map (repoStep choice) envs[i]?) ∧
    ((clone_to_workspace_run token cenvs).length = cenvs.length ∧
      ∀ i : Nat, (clone_to_workspace_run token cenvs)[i]? =
        Option.map (clone_to_workspace_step token) cenvs[i]?) := by
  refine ⟨⟨?_, ?_⟩, ?_, ?_⟩ <;>
    simp [batch_workspace_manager_run, clone_to_workspace_run]

/-- C7 counterexample: a failed `git clone` invocation does not delete the
destination directory — the loop body only reports the failure; no removal
action exists anywhere in the function. -/
theorem clone_failure_no_cleanup_counterexample :
    (clone_to_workspace_step "tok".toList
      ⟨false, "https://h/r".toList, false⟩).2 = CloneOutcome.cloneFailed ∧
    CloneEvent.removeDst ∉
      (clone_to_workspace_step "tok".toList
        ⟨false, "https://h/r".toList, false⟩).1 := by
  decide

/-- C7 amended: the tool never deletes the clone destination, neither after
a failed nor after a successful clone invocation; a failed clone is only
reported. -/
theorem clone_never_removes_destination (token : List Char) (env : CloneEnv) :
    CloneEvent.removeDst ∉ (clone_to_workspace_step token env).1 := by
  rcases env with ⟨d, u, c⟩
  cases d <;> cases c <;> simp [clone_to_workspace_step]

/-- C1 counterexample: under the Sync choice, when `git pull` exits non-zero
the raised `CalledProcessError` escapes to the per-repository handler, so
neither `git add`/`git commit` nor `git push` is attempted for that
repository even though its working tree is dirty (`commitCode = 0` would
have committed): the pull failure does prevent the Push steps. -/
theorem sync_pull_failure_skips_push_counterexample :
    (repoStep BatchChoice.syncAll ⟨false, true, 0, true⟩).1 = [GitCmd.pull] ∧
    GitCmd.commit ∉ (repoStep BatchChoice.syncAll ⟨false, true, 0, true⟩).1 ∧
    GitCmd.push ∉ (repoStep BatchChoice.syncAll ⟨false, true, 0, true⟩).1 ∧
    (repoStep BatchChoice.syncAll ⟨false, true, 0, true⟩).2 = Outcome.failed := by
  decide

/-- C1 amended: under the Sync choice a pull failure aborts the remaining
steps for that repository — no commit or push is attempted and the
repository is reported failed; only after a successful pull does the Push
phase begin (its first step, `git add`, is attempted). -/
theorem sync_pull_failure_aborts_repo (env : RepoEnv) :
    (env.pullOk = false →
      repoStep BatchChoice.syncAll env = ([GitCmd.pull], Outcome.failed)) ∧
    (env.pullOk = true →
      GitCmd.addAll ∈ (repoStep BatchChoice.syncAll env).1) := by
  rcases env with ⟨p, a, cc, ps⟩
  constructor
  · intro h
    simp only at h
    simp [repoStep, tryBlock, h]
  · intro h
    simp only at h
    by_cases hcc : cc = 0 <;> cases a <;> cases ps <;>
      simp [repoStep, tryBlock, pushPhase, h, hcc]

theorem sync_pull_failure_aborts_repo_witness :
    (repoStep BatchChoice.syncAll ⟨false, true, 0, true⟩ =
      ([GitCmd.pull], Outcome.failed)) ∧
    GitCmd.addAll ∈ (repoStep BatchChoice.syncAll ⟨true, true, 0, true⟩).1 :=
  ⟨(sync_pull_failure_aborts_repo ⟨false, true, 0, true⟩).1 rfl,
   (sync_pull_failure_aborts_repo ⟨true, true, 0, true⟩).2 rfl⟩

/-- C3 counterexample: the commit step only inspects `returncode == 0`, so a
commit failing with exit code 128 (e.g. missing identity or corrupted
index) produces exactly the same observable result as the genuine
"nothing to commit" exit code 1 — the "nothing to commit" report, with no
distinct error. -/
theorem commit_failure_counterexample :
    repoStep BatchChoice.pushAll ⟨true, true, 128, true⟩ =
      repoStep BatchChoice.pushAll ⟨true, true, 1, true⟩ ∧
    (repoStep BatchChoice.pushAll ⟨true, true, 128, true⟩).2 =
      Outcome.nothingToCommit ∧
    GitCmd.push ∉ (repoStep BatchChoice.pushAll ⟨true, true, 128, true⟩).1 := by
  decide

/-- C3 amended: `commitIfDirty` (the staged `git commit` with a returncode
test) yields the "nothing to commit" result exactly when the commit command
exits non-zero, whatever the cause — commit failures from other causes are
reported the same way, not as a distinct CommitError; the commit command is
issued exactly once. -/
theorem commit_nonzero_is_nothing_to_commit (env : RepoEnv)
    (h : env.addOk = true) :
    ((repoStep BatchChoice.pushAll env).2 = Outcome.nothingToCommit ↔
      env.commitCode ≠ 0) ∧
    (repoStep BatchChoice.pushAll env).1.count GitCmd.commit = 1 := by
  rcases env with ⟨p, a, cc, ps⟩
  simp only at h
  subst h
  by_cases hcc : cc = 0 <;> cases ps <;>
    simp [repoStep, tryBlock, pushPhase, hcc, List.count_cons]

theorem commit_nonzero_is_nothing_to_commit_witness :
    (((repoStep BatchChoice.pushAll ⟨true, true, 1, true⟩).2 =
        Outcome.nothingToCommit) ↔ (1 : Nat) ≠ 0) ∧
    (repoStep BatchChoice.pushAll ⟨true, true, 1, true⟩).1.count
      GitCmd.commit = 1 :=
  commit_nonzero_is_nothing_to_commit ⟨true, true, 1, true⟩ rfl

/-- C5: under the Push choice, `git push` is invoked exactly when the commit
step exited with code 0 (i.e. `commitIfDirty` returned true); on a non-zero
commit exit the repository is reported "nothing to commit" and push is
never attempted. -/
theorem push_iff_commit_succeeded (env : RepoEnv) (h : env.addOk = true) :
    (GitCmd.push ∈ (repoStep BatchChoice.pushAll env).1 ↔
      env.commitCode = 0) ∧
    (env.commitCode ≠ 0 →
      (repoStep BatchChoice.pushAll env).2 = Outcome.nothingToCommit ∧
      GitCmd.push ∉ (repoStep BatchChoice.pushAll env).1) := by
  rcases env with ⟨p, a, cc, ps⟩
  simp only at h
  subst h
  by_cases hcc : cc = 0 <;> cases ps <;>
    simp [repoStep, tryBlock, pushPhase, hcc]

theorem push_iff_commit_succeeded_witness :
    (GitCmd.push ∈ (repoStep BatchChoice.pushAll ⟨true, true, 0, true⟩).1 ↔
      (0 : Nat) = 0) ∧
    ((repoStep BatchChoice.pushAll ⟨true, true, 1, true⟩).2 =
        Outcome.nothingToCommit ∧
      GitCmd.push ∉ (repoStep BatchChoice.pushAll ⟨true, true, 1, true⟩).1) :=
  ⟨(push_iff_commit_succeeded ⟨true, true, 0, true⟩ rfl).1,
   (push_iff_commit_succeeded ⟨true, true, 1, true⟩ rfl).2 (by decide)⟩

/-- C8 counterexample: when `git remote set-url` fails, the origin URL stays
unchanged (the operation genuinely failed), yet `fix_remote_with_token`
emits exactly the same events as a successful run — including the
"Updated remote" log entry — and (like the Python function, which returns
`None` and catches every exception) gives its caller no indication of the
failure: the failure is silently swallowed, not reported. -/
theorem fix_remote_failure_invisible_counterexample :
    (fix_remote_with_token "tok".toList ⟨true, false⟩
        (some "https://h/r".toList)).2 =
      (fix_remote_with_token "tok".toList ⟨true, true⟩
        (some "https://h/r".toList)).2 ∧
    FixEvent.loggedUpdated ∈
      (fix_remote_with_token "tok".toList ⟨true, false⟩
        (some "https://h/r".toList)).2 ∧
    (fix_remote_with_token "tok".toList ⟨true, false⟩
        (some "https://h/r".toList)).1 = some "https://h/r".toList ∧
    (fix_remote_with_token "tok".toList ⟨true, false⟩
        (some "https://h/r".toList)).1 ≠
      (fix_remote_with_token "tok".toList ⟨true, true⟩
        (some "https://h/r".toList)).1 := by
  decide

/-- C8 amended: `fix_remote_with_token` swallows every failure of the
credential fix-up: the events it emits (its caller-observable behaviour,
including the unconditional "Updated remote" log entry) do not depend on
whether the `set-url` command succeeds, so a failed `embedCredential` is
indistinguishable from a successful one and is never reported. -/
theorem fix_remote_swallows_failures (token : List Char) (g s : Bool)
    (origin : Option (List Char)) :
    (fix_remote_with_token token ⟨g, s⟩ origin).2 =
      (fix_remote_with_token token ⟨g, true⟩ origin).2 := by
  cases origin with
  | none => rfl
  | some url =>
      cases g <;> cases hp : isPlainHttps url <;>
        simp [fix_remote_with_token, hp]

/-- C9 counterexample: a batch pull over a repository whose origin URL is
`http://host/repo.git` completes successfully, yet the final origin URL is
unchanged and contains no `@` at all — hence no embedded credential: the
invariant "after reconciliation the origin URL always contains the
embedded credential" fails for non-HTTPS origins. -/
theorem reconciled_origin_without_credential_counterexample :
    (batch_workspace_manager_step "tok123".toList ⟨true, true⟩
        (some "http://host/repo.git".toList) BatchChoice.pullAll
        ⟨true, true, 0, true⟩).2.2 = Outcome.ok ∧
    (batch_workspace_manager_step "tok123".toList ⟨true, true⟩
        (some "http://host/repo.git".toList) BatchChoice.pullAll
        ⟨true, true, 0, true⟩).1.1 = some "http://host/repo.git".toList ∧
    '@' ∉ "http://host/repo.git".toList := by
  decide

/-- C9 amended: after a batch reconciliation step the origin URL embeds the
credential only when the previous URL had the plain unauthenticated HTTPS
form and the two remote commands succeeded — then it becomes
`https://` ++ token ++ `@` ++ rest; every other URL form is left exactly as
it was. -/
theorem credential_embedded_only_for_plain_https (token url : List Char)
    (choice : BatchChoice) (env : RepoEnv) (g s : Bool) :
    (isPlainHttps url = true →
      (batch_workspace_manager_step token ⟨true, true⟩ (some url)
          choice env).1.1 = some (withToken token url) ∧
      ∃ t, withToken token url = HTTPS ++ token ++ ['@'] ++ t) ∧
    (isPlainHttps url = false →
      (batch_workspace_manager_step token ⟨g, s⟩ (some url)
          choice env).1.1 = some url) := by
  constructor
  · intro h
    refine ⟨?_, withToken_of_plain token url h⟩
    simp [batch_workspace_manager_step, fix_remote_with_token, h, withToken]
  · intro h
    cases g <;>
      simp [batch_workspace_manager_step, fix_remote_with_token, h]

theorem credential_embedded_only_for_plain_https_witness :
    ((batch_workspace_manager_step "tok".toList ⟨true, true⟩
        (some "https://h/r".toList) BatchChoice.pullAll
        ⟨true, true, 0, true⟩).1.1 =
      some (withToken "tok".toList "https://h/r".toList) ∧
      ∃ t, withToken "tok".toList "https://h/r".toList =
        HTTPS ++ "tok".toList ++ ['@'] ++ t) ∧
    (batch_workspace_manager_step "tok".toList ⟨true, true⟩
        (some "git@h:r.git".toList) BatchChoice.pullAll
        ⟨true, true, 0, true⟩).1.1 = some "git@h:r.git".toList :=
  ⟨(credential_embedded_only_for_plain_https "tok".toList
      "https://h/r".toList BatchChoice.pullAll ⟨true, true, 0, true⟩
      true true).1 (by decide),
   (credential_embedded_only_for_plain_https "tok".toList
      "git@h:r.git".toList BatchChoice.pullAll ⟨true, true, 0, true⟩
      true true).2 (by decide)⟩

end UnifiedManager
